import Mathlib

/-!
Shallow embedding of `gursShp2geoJson.go` (GursAddressesForOSM).

The program converts a cadastral address shapefile into a GeoJSON feature
collection.  We embed the pure transformation logic:

* `readShapefileToMap`   — the lookup-table loader (lines 25–85);
* `processRecord`        — the per-record body of `ReadShapefile` (lines 171–274);
* `ReadShapefile`        — the record loop (lines 152–277);
* `NormalizeHouseNumber` — the house-number sort key (lines 323–336);
* `ApplyTagLanguagePostfix` — the bilingual suffix choice (lines 339–351);
* `featureLess`          — the comparator of `SortFeatureCollection` (lines 282–319);
* `SortFeatureCollection` — the sort (lines 280–320).

Modelling conventions:

* Go strings are modelled as Lean `String` (sequences of runes); the data this
  program handles is single-byte-charset text, where byte positions and rune
  positions coincide.  Go's byte-lexicographic `<` on strings agrees with
  codepoint order on UTF-8 and is modelled by `goStringLt`.
* Go `float64` coordinates are modelled as `ℚ`; the only arithmetic performed
  on them is rounding to 7 decimals and one order comparison against `14.5`.
* The Windows-1250 decoder is an external collaborator (the spec excludes it
  from the core); it is passed in as an explicit `decode : String → String`
  parameter wherever the source calls `DecodeWindows1250`.
* Go map indexing `m[k]` yields the zero value `""` on a miss; maps are
  modelled as `String → Option String` and the indexing as `(m k).getD ""`.
* A Go runtime panic (out-of-range string slice, failed type assertion) aborts
  the run; fallible operations return `Option`/an explicit `panicked` result.
-/

namespace Gurs

/-! ### Constants (source lines 87–108) -/

def roundingFactor : ℚ := 10000000

def tagHousenumber : String := "addr:housenumber"

def tagCity : String := "addr:city"

def tagPostCode : String := "addr:postcode"

def tagStreet : String := "addr:street"

def tagPlace : String := "addr:place"

def tagSourceDate : String := "source:addr:date"

def tagSource : String := "source:addr"

def tagSourceValue : String := "GURS"

def tagRef : String := "ref:GURS:HS_MID"

def tagLangPostfixSlovenian : String := ":sl"

def tagLangPostfixItalian : String := ":it"

def tagLangPostfixHungarian : String := ":hu"

def bilingualSeparator : String := " / "

/-! ### Go standard-library primitives used by the source -/

/-- Models Go `math.Round`: round half away from zero. -/
def goRound (q : ℚ) : ℤ :=
  if q < 0 then -⌊-q + 1 / 2⌋ else ⌊q + 1 / 2⌋

/-- Models `math.Round(x*roundingFactor) / roundingFactor` (source lines 198–199). -/
def round7 (x : ℚ) : ℚ :=
  (goRound (x * roundingFactor) : ℚ) / roundingFactor

/-- Models Go string slicing `s[i:j]` (byte positions; rune positions for the
single-byte text this program reads).  Go panics unless `i ≤ j ≤ len(s)`;
the panic is represented by `none`. -/
def goSlice (s : String) (i j : Nat) : Option String :=
  if i ≤ j ∧ j ≤ s.data.length then some ⟨(s.data.drop i).take (j - i)⟩ else none

/-- Models Go `strings.ToLower` (rune-wise lowercasing; `Char.toLower`
covers the ASCII range this dataset uses). -/
def goToLower (s : String) : String := ⟨s.data.map Char.toLower⟩

/-- Models Go `strings.Trim(s, "\u0000")`: remove leading and trailing NUL. -/
def trimNulls (s : String) : String :=
  ⟨((s.data.dropWhile (· = '\u0000')).reverse.dropWhile (· = '\u0000')).reverse⟩

/-- Models Go `fmt.Sprintf` left zero-padding of a string to a minimum
width `w` (the `0` flag pads strings with leading zeros; width counts runes;
no truncation happens when the string is longer than `w`). -/
def goPadLeftZeros (s : String) (w : Nat) : String :=
  ⟨List.replicate (w - s.data.length) '0' ++ s.data⟩

/-- Models Go `unicode.IsDigit` (decimal-digit test; `Char.isDigit` covers
the ASCII range this dataset uses). -/
def goIsDigit (c : Char) : Bool := c.isDigit

/-- Models Go byte-lexicographic `<` on the rune lists of two strings
(for valid UTF-8, byte order and codepoint order coincide). -/
def goCharsLt : List Char → List Char → Bool
  | [], [] => false
  | [], _ :: _ => true
  | _ :: _, [] => false
  | x :: xs, y :: ys => if x < y then true else if y < x then false else goCharsLt xs ys

/-- Models Go `<` on strings. -/
def goStringLt (a b : String) : Bool := goCharsLt a.data b.data

/-! ### House-number normalization (source lines 323–336) -/

/-- NormalizeHouseNumber returns a comparable house number: if the input is
empty or ends in a digit, `fmt.Sprintf("%03s_", h)`; otherwise
`fmt.Sprintf("%04s", h)`. -/
def NormalizeHouseNumber (housenumber : String) : String :=
  match housenumber.data.getLast? with
  | none => goPadLeftZeros housenumber 3 ++ "_"
  | some lastRune =>
    if goIsDigit lastRune then goPadLeftZeros housenumber 3 ++ "_"
    else goPadLeftZeros housenumber 4

/-! ### Bilingual suffix choice (source lines 339–351) -/

def ItalianHungarianSplitLongitude : ℚ := 14.5

/-- ApplyTagLanguagePostfix appends the Hungarian suffix when the longitude is
strictly east of the split meridian, the Italian suffix otherwise. -/
def ApplyTagLanguagePostfix (pfx : String) (longitude : ℚ) : String :=
  if longitude > ItalianHungarianSplitLongitude then pfx ++ tagLangPostfixHungarian
  else pfx ++ tagLangPostfixItalian

/-! ### Lookup-table loader (source lines 25–85) -/

/-- Models the loader loop of `readShapefileToMap`: the consumed shapefile
interface delivers, per record, the raw key-column and value-column strings;
the loop decodes the value, trims NULs, and inserts only non-empty values,
later records overwriting earlier ones with the same decoded key. -/
def readShapefileToMap (decode : String → String)
    (records : List (String × String)) : String → Option String :=
  records.foldl
    (fun result kv =>
      let valueUtf := trimNulls (decode kv.2)
      if valueUtf.data.length > 0 then Function.update result (decode kv.1) (some valueUtf)
      else result)
    (fun _ => none)

/-! ### The feature transformer (source lines 152–277) -/

/-- One primary address record as consumed from the shapefile interface:
its attribute row (indexed access, missing cells read as `""` which models
exhausting the DBF row) and the bounding-box minimum corner of its shape. -/
structure GoRecord where
  attrs : List String
  minX : ℚ
  minY : ℚ

/-- Models `shapeReader.Attribute(i)` for the current record. -/
def GoRecord.attribute (r : GoRecord) (i : Nat) : String := r.attrs.getD i ""

/-- The six lookup maps (source line 111), already loaded. -/
structure Lookups where
  ptCodeMap : String → Option String
  ptNameMap : String → Option String
  ulNameMap : String → Option String
  ulNameDjMap : String → Option String
  naNameMap : String → Option String
  naNameDjMap : String → Option String

/-- A GeoJSON point feature: its coordinate list and its properties map.
Every property this program sets is a string, so the property bag is
modelled as a map to `Option String` (`none` = key absent). -/
structure Feature where
  geometry : List ℚ
  props : String → Option String

/-- Models `f.SetProperty(key, value)` (map assignment). -/
def Feature.setProperty (f : Feature) (key value : String) : Feature :=
  { f with props := Function.update f.props key (some value) }

/-- Outcome of the loop body of `ReadShapefile` for one record. -/
inductive RecResult where
  | skipped
  | panicked
  | emitted (f : Feature)

/-- The per-record body of `ReadShapefile` (source lines 188–273): skip
records whose STATUS attribute is not `"V"`; otherwise build the feature,
resolving street/place naming, postcode, city, date, source and ref tags.
The date reformatting slices the raw attribute positionally and panics when
it is shorter than 8. -/
def processRecord (decode : String → String) (lk : Lookups) (r : GoRecord) : RecResult :=
  if r.attribute 12 ≠ "V" then .skipped
  else
    let lat := round7 r.minY
    let lon := round7 r.minX
    let f : Feature := ⟨[lat, lon], fun _ => none⟩
    let labela := r.attribute 4
    let f := f.setProperty tagHousenumber (goToLower (decode labela))
    let ulMid := r.attribute 5
    let f :=
      match lk.ulNameMap ulMid with
      | some ulName =>
        match lk.ulNameDjMap ulMid with
        | some ulNameDj =>
          if ulNameDj ≠ ulName then
            ((f.setProperty tagStreet (ulName ++ bilingualSeparator ++ ulNameDj)).setProperty
                (tagStreet ++ tagLangPostfixSlovenian) ulName).setProperty
              ( ApplyTagLanguagePostfix tagStreet lon) ulNameDj
          else f.setProperty tagStreet ulName
        | none => f.setProperty tagStreet ulName
      | none =>
        let naMid := r.attribute 6
        let naName := (lk.naNameMap naMid).getD ""
        match lk.naNameDjMap naMid with
        | some naNameDj =>
          if naNameDj ≠ naName then
            ((f.setProperty tagPlace (naName ++ bilingualSeparator ++ naNameDj)).setProperty
                (tagPlace ++ tagLangPostfixSlovenian) naName).setProperty
              ( ApplyTagLanguagePostfix tagPlace lon) naNameDj
          else f.setProperty tagPlace naName
        | none => f.setProperty tagPlace naName
    let ptMid := r.attribute 8
    let f := f.setProperty tagPostCode ((lk.ptCodeMap ptMid).getD "")
    let f := f.setProperty tagCity ((lk.ptNameMap ptMid).getD "")
    let dateOd := r.attribute 10
    match goSlice dateOd 0 4, goSlice dateOd 4 6, goSlice dateOd 6 8 with
    | some y4, some m2, some d2 =>
      let f := f.setProperty tagSourceDate (y4 ++ "-" ++ m2 ++ "-" ++ d2)
      let f := f.setProperty tagSource tagSourceValue
      let hsMid := r.attribute 1
      let f := f.setProperty tagRef hsMid
      .emitted f
    | _, _, _ => .panicked

/-- The record loop of `ReadShapefile`: features accumulate in record order;
a panic while processing any record aborts the whole run (`none`). -/
def ReadShapefile (decode : String → String) (lk : Lookups) :
    List GoRecord → Option (List Feature)
  | [] => some []
  | r :: rs =>
    match processRecord decode lk r with
    | .skipped => ReadShapefile decode lk rs
    | .panicked => none
    | .emitted f => (ReadShapefile decode lk rs).map (fun fs => f :: fs)

/-! ### The sorter (source lines 280–320) -/

/-- One middle tier of the comparator (source lines 292–316): when both
features carry the tag, compare its values and decide, equal values (or a
missing tag on either side) fall through to the next tier (`none`). -/
def strTier (l r : Option String) : Option Bool :=
  match l, r with
  | some x, some y =>
    if goStringLt x y then some true
    else if goStringLt y x then some false
    else none
  | _, _ => none

/-- The comparator passed to `sort.Slice` (source lines 282–318): postcode
tier (unconditional string type assertions — `none` models the panic on a
missing tag), then street tier, then place tier, then the normalized
house-number tier (again with unconditional assertions). -/
def featureLess (a b : Feature) : Option Bool :=
  match a.props tagPostCode, b.props tagPostCode with
  | some postLeft, some postRight =>
    if goStringLt postLeft postRight then some true
    else if goStringLt postRight postLeft then some false
    else
      match strTier (a.props tagStreet) (b.props tagStreet) with
      | some d => some d
      | none =>
        match strTier (a.props tagPlace) (b.props tagPlace) with
        | some d => some d
        | none =>
          match a.props tagHousenumber, b.props tagHousenumber with
          | some hl, some hr =>
            some (goStringLt ( NormalizeHouseNumber hl) ( NormalizeHouseNumber hr))
          | _, _ => none
  | _, _ => none

/-- SortFeatureCollection reorders the features by the comparator.
`sort.Slice(less)` is modelled by a comparison sort with
`le a b := !(less b a)`; a comparator panic (which in Go aborts the run)
is totalised as "not less", which no theorem below relies on: they either
assume every needed comparison is defined or conclude definedness. -/
def SortFeatureCollection (features : List Feature) : List Feature :=
  features.mergeSort (fun a b => !((featureLess b a).getD false))

/-! ### Concrete sample data used to exercise the model -/

/-- Projection of the loop-body outcome onto the emitted feature. -/
def emittedFeature? : RecResult → Option Feature
  | .emitted f => some f
  | _ => none

/-- Six empty lookup tables (the state when every auxiliary source scans to
nothing, cf. the loader's empty-table warning path). -/
def emptyLookups : Lookups :=
  ⟨fun _ => none, fun _ => none, fun _ => none, fun _ => none, fun _ => none, fun _ => none⟩

/-- Lookup state where only the bilingual settlement table has an entry for
the settlement identifier `"2001"`. -/
def djOnlyLookups : Lookups :=
  ⟨fun _ => none, fun _ => none, fun _ => none, fun _ => none, fun _ => none,
   fun s => if s = "2001" then some "Dolina" else none⟩

/-- A valid primary record (STATUS `"V"`), attribute layout as documented in
the source: 0 ENOTA, 1 HS_MID, 2 HS, 3 HD, 4 LABELA, 5 UL_MID, 6 NA_MID,
7 OB_MID, 8 PT_MID, 9 PO_MID, 10 D_OD, 11 DV_OD, 12 STATUS. -/
def sampleRecord : GoRecord :=
  { attrs := ["10", "11071934", "12", "a", "12A", "1001", "2001", "", "3001", "",
              "20200102", "20200103", "V"],
    minX := 14.6, minY := 46.05 }

/-- Like `sampleRecord` but with an empty validity-date attribute. -/
def shortDateRecord : GoRecord :=
  { attrs := ["10", "11071934", "12", "a", "12A", "1001", "2001", "", "3001", "",
              "", "20200103", "V"],
    minX := 14.6, minY := 46.05 }

/-- Like `sampleRecord` but with STATUS `"N"` (an invalidated record). -/
def invalidRecord : GoRecord :=
  { attrs := ["10", "11071934", "12", "a", "12A", "1001", "2001", "", "3001", "",
              "20200102", "20200103", "N"],
    minX := 14.6, minY := 46.05 }

/-- A feature with postcode `"1000"` and housenumber `"1"`. -/
def featLjubljana : Feature :=
  ⟨[], Function.update (Function.update (fun _ => none) tagPostCode (some "1000"))
        tagHousenumber (some "1")⟩

/-- A feature with postcode `"2000"` and housenumber `"2"`. -/
def featMaribor : Feature :=
  ⟨[], Function.update (Function.update (fun _ => none) tagPostCode (some "2000"))
        tagHousenumber (some "2")⟩

/-! ### Helper lemmas -/

theorem setProperty_props (f : Feature) (k v k' : String) :
    (f.setProperty k v).props k' = if k' = k then some v else f.props k' := by
  simp [Feature.setProperty, Function.update_apply]

theorem apply_postfix_eq_or (p : String) (lon : ℚ) :
    ApplyTagLanguagePostfix p lon = p ++ tagLangPostfixHungarian ∨
    ApplyTagLanguagePostfix p lon = p ++ tagLangPostfixItalian := by
  unfold ApplyTagLanguagePostfix
  split
  · exact Or.inl rfl
  · exact Or.inr rfl

theorem emittedFeature?_eq_some {res : RecResult} {f : Feature}
    (h : emittedFeature? res = some f) : res = RecResult.emitted f := by
  cases res with
  | skipped => exact Option.noConfusion h
  | panicked => exact Option.noConfusion h
  | emitted g =>
    simp only [emittedFeature?, Option.some.injEq] at h
    rw [h]

theorem goSlice_eq_some {s : String} {i j : Nat} (hij : i ≤ j) (hj : j ≤ s.data.length) :
    goSlice s i j = some ⟨(s.data.drop i).take (j - i)⟩ := by
  unfold goSlice
  exact if_pos ⟨hij, hj⟩

theorem goSlice_eq_none {s : String} {i j : Nat} (h : ¬(i ≤ j ∧ j ≤ s.data.length)) :
    goSlice s i j = none := by
  unfold goSlice
  exact if_neg h

theorem processRecord_emitted_tail (decode : String → String) (lk : Lookups) (r : GoRecord)
    (f : Feature) (h : processRecord decode lk r = RecResult.emitted f) :
    f.props tagPostCode = some ((lk.ptCodeMap (r.attribute 8)).getD "") ∧
    f.props tagCity = some ((lk.ptNameMap (r.attribute 8)).getD "") ∧
    f.props tagHousenumber = some (goToLower (decode (r.attribute 4))) ∧
    f.props tagSource = some tagSourceValue ∧
    f.props tagRef = some (r.attribute 1) := by
  simp only [processRecord] at h
  split at h
  · exact absurd h (by simp)
  split at h
  case _ y4 m2 d2 _ _ _ =>
    rw [RecResult.emitted.injEq] at h
    subst h
    rcases apply_postfix_eq_or "addr:street" (round7 r.minX) with hA | hA <;>
      rcases apply_postfix_eq_or "addr:place" (round7 r.minX) with hB | hB <;>
      (split <;> (try split) <;> (try split) <;>
        simp [setProperty_props, hA, hB, tagPostCode, tagCity, tagHousenumber,
          tagSource, tagRef, tagSourceDate, tagStreet, tagPlace, tagSourceValue,
          tagLangPostfixSlovenian, tagLangPostfixItalian, tagLangPostfixHungarian])
  case _ =>
    exact absurd h (by simp)

theorem ReadShapefile_mem (decode : String → String) (lk : Lookups) :
    ∀ (records : List GoRecord) (features : List Feature),
      ReadShapefile decode lk records = some features →
      ∀ f ∈ features, ∃ r, processRecord decode lk r = RecResult.emitted f := by
  intro records
  induction records with
  | nil =>
    intro fs h f hf
    simp only [ReadShapefile, Option.some.injEq] at h
    subst h
    simp at hf
  | cons r rs ih =>
    intro fs h f hf
    simp only [ReadShapefile] at h
    cases hpr : processRecord decode lk r with
    | skipped =>
      rw [hpr] at h
      exact ih fs h f hf
    | panicked =>
      rw [hpr] at h
      exact Option.noConfusion h
    | emitted g =>
      rw [hpr] at h
      rcases Option.map_eq_some'.mp h with ⟨fs', hfs', hcons⟩
      subst hcons
      rcases List.mem_cons.mp hf with hf | hf
      · rw [hf]
        exact ⟨r, hpr⟩
      · exact ih fs' hfs' f hf

theorem featureLess_isSome {a b : Feature}
    (ha1 : (a.props tagPostCode).isSome) (hb1 : (b.props tagPostCode).isSome)
    (ha2 : (a.props tagHousenumber).isSome) (hb2 : (b.props tagHousenumber).isSome) :
    (featureLess a b).isSome := by
  rcases Option.isSome_iff_exists.mp ha1 with ⟨pl, hpl⟩
  rcases Option.isSome_iff_exists.mp hb1 with ⟨pr, hpr⟩
  rcases Option.isSome_iff_exists.mp ha2 with ⟨hl, hhl⟩
  rcases Option.isSome_iff_exists.mp hb2 with ⟨hr, hhr⟩
  unfold featureLess
  rw [hpl, hpr]
  dsimp only
  split
  · rfl
  · split
    · rfl
    · cases strTier (a.props tagStreet) (b.props tagStreet) with
      | some d => rfl
      | none =>
        dsimp only
        cases strTier (a.props tagPlace) (b.props tagPlace) with
        | some d => rfl
        | none =>
          dsimp only
          rw [hhl, hhr]
          rfl

/-! ### The claims -/

/-- Claim C1 (counterexample): on a valid record whose postal-area identifier
is missing from both postal lookups, the emitted feature carries
`addr:postcode` and `addr:city` with the empty-string value — the claim that
the tags are absent is false. -/
theorem postcode_city_miss_counterexample :
    (emittedFeature? (processRecord (fun s => s) emptyLookups sampleRecord)).map
        (fun f => (f.props tagPostCode, f.props tagCity)) =
      some (some "", some "") := by decide

/-- Claim C1 (amended): when the postal-area identifier is not a key of the
postalCode (resp. cityName) lookup, the emitted feature has an
`addr:postcode` (resp. `addr:city`) property present with the empty-string
value, because Go map indexing yields the zero value. -/
theorem postcode_city_empty_on_miss (decode : String → String) (lk : Lookups)
    (r : GoRecord) (f : Feature) (h : processRecord decode lk r = RecResult.emitted f) :
    (lk.ptCodeMap (r.attribute 8) = none → f.props tagPostCode = some "") ∧
    (lk.ptNameMap (r.attribute 8) = none → f.props tagCity = some "") := by
  have t := processRecord_emitted_tail decode lk r f h
  refine ⟨fun hc => ?_, fun hc => ?_⟩
  · rw [t.1, hc]; rfl
  · rw [t.2.1, hc]; rfl

theorem postcode_city_empty_on_miss_witness :
    ∃ f, processRecord (fun s => s) emptyLookups sampleRecord = RecResult.emitted f ∧
      f.props tagPostCode = some "" ∧ f.props tagCity = some "" := by
  have h0 : (emittedFeature? (processRecord (fun s => s) emptyLookups sampleRecord)).isSome =
      true := by decide
  rcases Option.isSome_iff_exists.mp h0 with ⟨f, hf⟩
  have hE := emittedFeature?_eq_some hf
  have hc := postcode_city_empty_on_miss (fun s => s) emptyLookups sampleRecord f hE
  exact ⟨f, hE, hc.1 rfl, hc.2 rfl⟩

/-- Claim C2 (counterexample): a record that passes the validity check but
whose validity-date attribute is shorter than 8 characters makes the
positional slicing panic, aborting the run — the claim that no step after
geometry extraction can abort is false. -/
theorem short_date_panics_counterexample :
    shortDateRecord.attribute 12 = "V" ∧
    processRecord (fun s => s) emptyLookups shortDateRecord = RecResult.panicked :=
  ⟨rfl, rfl⟩

/-- Claim C2 (amended): for a record that passes the validity check, the date
slicing is the only per-record step that can abort: whenever the raw
validity-date field has length at least 8 the record is emitted regardless of
its content, and whenever it is shorter the run aborts (slice bounds panic). -/
theorem valid_record_emits_iff_date_long_enough (decode : String → String) (lk : Lookups)
    (r : GoRecord) (hV : r.attribute 12 = "V") :
    (8 ≤ (r.attribute 10).data.length →
      ∃ f, processRecord decode lk r = RecResult.emitted f) ∧
    ((r.attribute 10).data.length < 8 →
      processRecord decode lk r = RecResult.panicked) := by
  constructor
  · intro hlen
    simp only [processRecord]
    rw [if_neg (fun hc => hc hV)]
    rw [goSlice_eq_some (by omega) (by omega), goSlice_eq_some (by omega) (by omega),
      goSlice_eq_some (by omega) (by omega)]
    exact ⟨_, rfl⟩
  · intro hlen
    simp only [processRecord]
    rw [if_neg (fun hc => hc hV)]
    rw [@goSlice_eq_none (r.attribute 10) 6 8 (by omega)]
    cases goSlice (r.attribute 10) 0 4 <;> cases goSlice (r.attribute 10) 4 6 <;> rfl

theorem valid_record_emits_iff_date_long_enough_witness :
    ∃ f, processRecord (fun s => s) emptyLookups sampleRecord = RecResult.emitted f :=
  (valid_record_emits_iff_date_long_enough (fun s => s) emptyLookups sampleRecord
    (by decide)).1 (by decide)

/-- Claim C3 (counterexample): `NormalizeHouseNumber "1234"` is `"1234_"`,
which has length 5, refuting the claim that the output always has length
exactly 4. -/
theorem normalizeHouseNumber_length_counterexample :
    NormalizeHouseNumber "1234" = "1234_" ∧
    ( NormalizeHouseNumber "1234").data.length ≠ 4 := by
  constructor
  · rfl
  · decide

/-- Claim C3 (amended): if the input is empty or ends in a digit, the result
ends in the placeholder and has length `max 3 |h| + 1` (hence exactly 4 for
inputs of length at most 3); if the input ends in a non-digit, the result
keeps that last character and has length `max 4 |h|` (hence exactly 4 for
inputs of length at most 4). -/
theorem normalizeHouseNumber_spec (h : String) :
    (h.data.getLast?.all goIsDigit = true →
      ( NormalizeHouseNumber h).data.length = max 3 h.data.length + 1 ∧
      ( NormalizeHouseNumber h).data.getLast? = some '_') ∧
    (∀ c, h.data.getLast? = some c → goIsDigit c = false →
      ( NormalizeHouseNumber h).data.length = max 4 h.data.length ∧
      ( NormalizeHouseNumber h).data.getLast? = some c) := by
  have hus : ("_" : String).data = ['_'] := rfl
  unfold NormalizeHouseNumber
  cases hl : h.data.getLast? with
  | none =>
    have hnil : h.data = [] := by simpa using List.getLast?_eq_none_iff.mp hl
    dsimp only
    constructor
    · intro _
      constructor
      · simp [goPadLeftZeros, String.data_append, hnil, hus]
      · simp [goPadLeftZeros, String.data_append, hnil, hus]
    · intro c hc
      exact Option.noConfusion hc
  | some c0 =>
    have hne : h.data ≠ [] := by
      intro hc
      rw [hc] at hl
      exact Option.noConfusion hl
    dsimp only
    constructor
    · intro hd
      rw [Option.all_some] at hd
      rw [if_pos hd]
      constructor
      · simp [goPadLeftZeros, String.data_append, hus]
        omega
      · rw [String.data_append, hus]
        exact List.getLast?_concat _
    · intro c hc hcd
      rw [Option.some.injEq] at hc
      subst hc
      rw [if_neg (by simp [hcd])]
      constructor
      · simp [goPadLeftZeros]
        omega
      · show ((List.replicate (4 - h.data.length) '0') ++ h.data).getLast? = some c0
        rw [List.getLast?_append_of_ne_nil _ hne]
        exact hl

theorem normalizeHouseNumber_spec_witness :
    ( NormalizeHouseNumber "12").data.getLast? = some '_' ∧
    ( NormalizeHouseNumber "12a").data.getLast? = some 'a' :=
  ⟨((normalizeHouseNumber_spec "12").1 (by decide)).2,
   ((normalizeHouseNumber_spec "12a").2 'a' (by decide) (by decide)).2⟩

/-- Claim C4: every emitted feature carries exactly one of the two naming tag
families: it has an `addr:street` property precisely when it has no
`addr:place` property. -/
theorem street_xor_place (decode : String → String) (lk : Lookups)
    (r : GoRecord) (f : Feature) (h : processRecord decode lk r = RecResult.emitted f) :
    ((f.props tagStreet).isSome = true ↔ f.props tagPlace = none) := by
  simp only [processRecord] at h
  split at h
  · exact absurd h (by simp)
  split at h
  case _ y4 m2 d2 _ _ _ =>
    rw [RecResult.emitted.injEq] at h
    subst h
    rcases apply_postfix_eq_or "addr:street" (round7 r.minX) with hA | hA <;>
      rcases apply_postfix_eq_or "addr:place" (round7 r.minX) with hB | hB <;>
      (split <;> (try split) <;> (try split) <;>
        simp [setProperty_props, hA, hB, tagPostCode, tagCity, tagHousenumber,
          tagSource, tagRef, tagSourceDate, tagStreet, tagPlace, tagSourceValue,
          tagLangPostfixSlovenian, tagLangPostfixItalian, tagLangPostfixHungarian])
  case _ =>
    exact absurd h (by simp)

theorem street_xor_place_witness :
    ∃ f, processRecord (fun s => s) emptyLookups sampleRecord = RecResult.emitted f ∧
      ((f.props tagStreet).isSome = true ↔ f.props tagPlace = none) := by
  have h0 : (emittedFeature? (processRecord (fun s => s) emptyLookups sampleRecord)).isSome =
      true := by decide
  rcases Option.isSome_iff_exists.mp h0 with ⟨f, hf⟩
  have hE := emittedFeature?_eq_some hf
  exact ⟨f, hE, street_xor_place (fun s => s) emptyLookups sampleRecord f hE⟩

/-- Claim C5: a primary record whose status-validity attribute differs from
the sentinel `"V"` is skipped, producing no feature, whatever its other
fields hold. -/
theorem invalid_status_skipped (decode : String → String) (lk : Lookups) (r : GoRecord)
    (h : r.attribute 12 ≠ "V") : processRecord decode lk r = RecResult.skipped := by
  unfold processRecord
  rw [if_pos h]

theorem invalid_status_skipped_witness :
    processRecord (fun s => s) emptyLookups invalidRecord = RecResult.skipped :=
  invalid_status_skipped (fun s => s) emptyLookups invalidRecord (by decide)

/-- Claim C6: the minority-language suffix is decided solely by the longitude
against the 14.5 threshold: strictly greater picks `:hu`, otherwise `:it`;
at 14.6 the Hungarian key results, at 14.4 the Italian key, and the two
resulting tag keys differ. -/
theorem applyTagLanguagePostfix_spec (pfx : String) (lon : ℚ) :
    ((14.5 : ℚ) < lon → ApplyTagLanguagePostfix pfx lon = pfx ++ ":hu") ∧
    (lon ≤ (14.5 : ℚ) → ApplyTagLanguagePostfix pfx lon = pfx ++ ":it") ∧
    ApplyTagLanguagePostfix pfx 14.6 = pfx ++ ":hu" ∧
    ApplyTagLanguagePostfix pfx 14.4 = pfx ++ ":it" ∧
    ApplyTagLanguagePostfix pfx 14.6 ≠ ApplyTagLanguagePostfix pfx 14.4 := by
  have hu : ∀ l : ℚ, (14.5 : ℚ) < l → ApplyTagLanguagePostfix pfx l = pfx ++ ":hu" := by
    intro l hlt
    unfold ApplyTagLanguagePostfix ItalianHungarianSplitLongitude
    rw [if_pos hlt]
    rfl
  have it : ∀ l : ℚ, l ≤ (14.5 : ℚ) → ApplyTagLanguagePostfix pfx l = pfx ++ ":it" := by
    intro l hle
    unfold ApplyTagLanguagePostfix ItalianHungarianSplitLongitude
    rw [if_neg (by exact not_lt.mpr hle)]
    rfl
  refine ⟨hu lon, it lon, hu 14.6 (by norm_num), it 14.4 (by norm_num), ?_⟩
  rw [hu 14.6 (by norm_num), it 14.4 (by norm_num)]
  intro hc
  have := congrArg String.data hc
  rw [String.data_append, String.data_append] at this
  have := List.append_cancel_left this
  simp at this

theorem applyTagLanguagePostfix_spec_witness :
    ApplyTagLanguagePostfix tagStreet 14.6 = tagStreet ++ ":hu" ∧
    ApplyTagLanguagePostfix tagStreet 14.4 = tagStreet ++ ":it" :=
  ⟨(applyTagLanguagePostfix_spec tagStreet 14.6).1 (by norm_num),
   (applyTagLanguagePostfix_spec tagStreet 14.4).2.1 (by norm_num)⟩

/-- Claim C7: the sort is idempotent — a collection already in sorted order
(every later feature is not less than any earlier one, with the comparator
returning a defined answer) is returned unchanged. -/
theorem sortFeatureCollection_idempotent (features : List Feature)
    (h : features.Pairwise (fun a b => featureLess b a = some false)) :
    SortFeatureCollection features = features := by
  unfold SortFeatureCollection
  refine List.mergeSort_of_sorted (h.imp ?_)
  intro a b hab
  rw [hab]
  rfl

theorem sortFeatureCollection_idempotent_witness :
    SortFeatureCollection [featLjubljana, featMaribor] = [featLjubljana, featMaribor] :=
  sortFeatureCollection_idempotent [featLjubljana, featMaribor] (by
    rw [List.pairwise_cons]
    refine ⟨?_, List.pairwise_singleton _ _⟩
    intro b hb
    rw [List.mem_singleton] at hb
    subst hb
    decide)

/-- Claim C8: the lookup loader inserts a key only when the decoded,
NUL-trimmed value is non-empty, with last-write-wins on repeated keys; in
particular loading `"100" → "Main St"` and `"101" → ""` yields a table
containing `"100"` and not containing `"101"`. -/
theorem readShapefileToMap_spec :
    (∀ (decode : String → String) (records : List (String × String)) (k v : String),
      readShapefileToMap decode (records ++ [(k, v)]) (decode k) =
        if (trimNulls (decode v)).data.length > 0 then some (trimNulls (decode v))
        else readShapefileToMap decode records (decode k)) ∧
    readShapefileToMap (fun s => s) [("100", "Main St"), ("101", "")] "100" =
      some "Main St" ∧
    readShapefileToMap (fun s => s) [("100", "Main St"), ("101", "")] "101" = none := by
  refine ⟨?_, by decide, by decide⟩
  intro decode records k v
  unfold readShapefileToMap
  rw [List.foldl_append]
  simp only [List.foldl_cons, List.foldl_nil]
  split
  · rw [Function.update_same]
  · rfl

/-- Claim C9 (counterexample): with the street and settlement identifiers
absent from the name lookups but the settlement identifier present in the
bilingual lookup, the emitted feature's `addr:place` is `" / Dolina"` (not
the empty string) and a bilingual variant is set — refuting the claim. -/
theorem place_double_miss_counterexample :
    (emittedFeature? (processRecord (fun s => s) djOnlyLookups sampleRecord)).map
        (fun f => (f.props tagPlace, f.props (tagPlace ++ tagLangPostfixSlovenian))) =
      some (some " / Dolina", some "") := by
  have ha12 : sampleRecord.attribute 12 = "V" := by decide
  have ha5 : sampleRecord.attribute 5 = "1001" := by decide
  have ha6 : sampleRecord.attribute 6 = "2001" := by decide
  have hs1 : goSlice (sampleRecord.attribute 10) 0 4 = some "2020" := by decide
  have hs2 : goSlice (sampleRecord.attribute 10) 4 6 = some "01" := by decide
  have hs3 : goSlice (sampleRecord.attribute 10) 6 8 = some "02" := by decide
  rcases apply_postfix_eq_or "addr:place" (round7 sampleRecord.minX) with hA | hA <;>
    simp [processRecord, emittedFeature?, ha12, ha5, ha6, hs1, hs2, hs3, hA, djOnlyLookups,
      setProperty_props, tagPlace, tagStreet, tagPostCode, tagCity, tagHousenumber,
      tagSource, tagSourceDate, tagRef, bilingualSeparator,
      tagLangPostfixSlovenian, tagLangPostfixItalian, tagLangPostfixHungarian]

/-- Claim C9 (amended): when the street identifier misses the streetName
lookup, the settlement identifier misses the settlementName lookup, and the
settlement identifier also has no (non-empty) entry in the settlementNameAlt
lookup, the emitted feature's `addr:place` is present with the empty-string
value and no bilingual variants are set. -/
theorem place_empty_on_double_miss (decode : String → String) (lk : Lookups)
    (r : GoRecord) (f : Feature) (h : processRecord decode lk r = RecResult.emitted f)
    (hUl : lk.ulNameMap (r.attribute 5) = none)
    (hNa : lk.naNameMap (r.attribute 6) = none)
    (hDj : lk.naNameDjMap (r.attribute 6) = none ∨
      lk.naNameDjMap (r.attribute 6) = some "") :
    f.props tagPlace = some "" ∧
    f.props (tagPlace ++ tagLangPostfixSlovenian) = none ∧
    f.props (tagPlace ++ tagLangPostfixItalian) = none ∧
    f.props (tagPlace ++ tagLangPostfixHungarian) = none := by
  simp only [processRecord] at h
  split at h
  · exact absurd h (by simp)
  split at h
  case _ y4 m2 d2 _ _ _ =>
    rw [RecResult.emitted.injEq] at h
    subst h
    rcases apply_postfix_eq_or "addr:street" (round7 r.minX) with hA | hA <;>
      rcases apply_postfix_eq_or "addr:place" (round7 r.minX) with hB | hB <;>
      (split <;> (try split) <;> (try split) <;>
        simp_all [setProperty_props, tagPostCode, tagCity, tagHousenumber,
          tagSource, tagRef, tagSourceDate, tagStreet, tagPlace, tagSourceValue,
          tagLangPostfixSlovenian, tagLangPostfixItalian, tagLangPostfixHungarian])
  case _ =>
    exact absurd h (by simp)

theorem place_empty_on_double_miss_witness :
    ∃ f, processRecord (fun s => s) emptyLookups sampleRecord = RecResult.emitted f ∧
      f.props tagPlace = some "" ∧
      f.props (tagPlace ++ tagLangPostfixSlovenian) = none := by
  have h0 : (emittedFeature? (processRecord (fun s => s) emptyLookups sampleRecord)).isSome =
      true := by decide
  rcases Option.isSome_iff_exists.mp h0 with ⟨f, hf⟩
  have hE := emittedFeature?_eq_some hf
  have hc := place_empty_on_double_miss (fun s => s) emptyLookups sampleRecord f hE
    rfl rfl (Or.inl rfl)
  exact ⟨f, hE, hc.1, hc.2.1⟩

/-- Claim C10: every feature the transformer appends carries `addr:postcode`
and `addr:housenumber`, so the sorter's unconditional type assertions on
these two tags cannot fail: the comparator is defined on every pair of
features of a transformer-produced collection. -/
theorem transformer_output_sortable (decode : String → String) (lk : Lookups)
    (records : List GoRecord) (features : List Feature)
    (h : ReadShapefile decode lk records = some features) :
    ∀ a ∈ features, (a.props tagPostCode).isSome = true ∧
      (a.props tagHousenumber).isSome = true ∧
      ∀ b ∈ features, (featureLess a b).isSome = true := by
  have key : ∀ f ∈ features, (f.props tagPostCode).isSome = true ∧
      (f.props tagHousenumber).isSome = true := by
    intro f hf
    rcases ReadShapefile_mem decode lk records features h f hf with ⟨r, hr⟩
    have t := processRecord_emitted_tail decode lk r f hr
    rw [t.1, t.2.2.1]
    exact ⟨rfl, rfl⟩
  intro a ha
  refine ⟨(key a ha).1, (key a ha).2, fun b hb => ?_⟩
  exact featureLess_isSome (key a ha).1 (key b hb).1 (key a ha).2 (key b hb).2

theorem transformer_output_sortable_witness :
    ∃ features, ReadShapefile (fun s => s) emptyLookups [sampleRecord] = some features ∧
      ∀ a ∈ features, (a.props tagPostCode).isSome = true ∧
        (a.props tagHousenumber).isSome = true ∧
        ∀ b ∈ features, (featureLess a b).isSome = true := by
  have h0 : (ReadShapefile (fun s => s) emptyLookups [sampleRecord]).isSome = true := by
    decide
  rcases Option.isSome_iff_exists.mp h0 with ⟨fs, hfs⟩
  exact ⟨fs, hfs, transformer_output_sortable (fun s => s) emptyLookups [sampleRecord] fs hfs⟩

end Gurs
